import Mathlib

/-!
Verification development for the pathway diagram editor
(`src/components/PathwayEditor.vue`).

The TypeScript source is shallowly embedded: the reactive `graph` computed
property becomes the pure function `buildGraph`, the visibility toggle
`updateState` becomes a pure function on `ReactomeItem`, and the settings
initialisation expressions become pure functions of the stored string.
JavaScript exceptions are modelled with `Except String`; JavaScript string
union types (`"hide" | "split" | "show"`, `"event" | "compound"`, ...) are
modelled as `String` values, exactly as they appear in the source.
-/

/-- The `ReactomeItem` record of the source: visibility / pathway entries. -/
structure ReactomeItem where
  stId : String
  type : String
  name : List String
  displayName : String
  state : String
deriving DecidableEq

/-- A well-formed compound record as delivered by the upstream API: the
fields of the objects read by the `graph` builder. -/
structure CompoundRec where
  stId : String
  displayName : String
  name : List String
deriving DecidableEq

/-- One element of an event's `input` / `output` array.  The source guards
each element with `typeof compound === 'object' && compound !== null`;
`malformed` models any element failing that guard (a bare number, `null`,
and similar upstream junk). -/
inductive Entry where
  | compound (c : CompoundRec)
  | malformed
deriving DecidableEq

/-- An event record as consumed by the `graph` builder. -/
structure EventRec where
  stId : String
  displayName : String
  name : List String
  className : String
  input : List Entry
  output : List Entry
  pathwayId : Option String
deriving DecidableEq

/-- The `NamedNode` produced by the builder.  Links hold indices into the
node list (the source stores object references; the index of the pushed
node plays that role here). -/
structure NamedNode where
  name : List String
  displayName : String
  stId : String
  type : String
  compartment : Option String
  pathwayId : Option String
  x : Int
  y : Int
  width : Int
  height : Int
deriving DecidableEq

/-- A directed edge; `source`/`target` index the builder's node list. -/
structure Link where
  source : Nat
  target : Nat
deriving DecidableEq

/-- Result of the `graph` computed property. -/
structure Graph where
  nodes : List NamedNode
  links : List Link
deriving DecidableEq

/-- The `cachedPositions` object: stable id to last position. -/
abbrev Cache := List (String × Int × Int)

/-- `hidden.value.find((d) => d.stId === node.stId)` of the source. -/
def getHiddenNode : List ReactomeItem → String → Option ReactomeItem
  | [], _ => none
  | e :: rest, sid => if e.stId = sid then some e else getHiddenNode rest sid

/-- `getHiddenNode(x)?.state`: the visibility state recorded for a stable id. -/
def visOf (hidden : List ReactomeItem) (sid : String) : Option String :=
  (getHiddenNode hidden sid).map (fun d => d.state)

/-- Lookup in the builder's `nodeMap` object (display name to node index);
assignment is modelled by consing, lookup by first match. -/
def lookupName : List (String × Nat) → String → Option Nat
  | [], _ => none
  | (k, v) :: rest, d => if d = k then some v else lookupName rest d

/-- Lookup in `cachedPositions`. -/
def cacheLookup : Cache → String → Option (Int × Int)
  | [], _ => none
  | (k, p) :: rest, sid => if sid = k then some p else cacheLookup rest sid

/-- `...initialPosition, ...(cachedPositions[id] || {})`: position spread. -/
def posOf (cache : Cache) (sid : String) : Int × Int :=
  match cacheLookup cache sid with
  | some p => p
  | none => (0, 0)

/-- The group part of `displayName.match(/\x7b lazy bracket regex \x7d/)`:
scan for a closing `]` with no intervening newline (`.` does not match
newlines, and the lazy quantifier stops at the first `]`). -/
def matchClose : List Char → Option (List Char)
  | [] => none
  | c :: rest =>
    if c = ']' then some []
    else if c = '\n' then none
    else (matchClose rest).map (fun g => c :: g)

/-- Leftmost match of the bracket regex: try each `[` in turn. -/
def bracketSearch : List Char → Option (List Char)
  | [] => none
  | c :: rest =>
    if c = '[' then
      match matchClose rest with
      | some g => some g
      | none => bracketSearch rest
    else bracketSearch rest

/-- `displayName.match(/\x5c[(.*?)\x5c]/)` group 1, or `none` when the
regex does not match (JavaScript `match` returns `null`). -/
def mkCompartment (s : String) : Option String :=
  (bracketSearch s.data).map (fun cs => String.mk cs)

/-- Mutable state threaded through the `events.forEach` loop of `graph`. -/
structure BuildState where
  nodes : List NamedNode
  links : List Link
  nodeMap : List (String × Nat)
deriving DecidableEq

/-- `nodes.push(n); nodeMap[n.displayName] = nodes[nodes.length - 1]`. -/
def pushNode (st : BuildState) (n : NamedNode) : BuildState :=
  { nodes := st.nodes ++ [n]
    links := st.links
    nodeMap := (n.displayName, st.nodes.length) :: st.nodeMap }

/-- The event node pushed for a fresh reaction display name. -/
def mkEventNode (ns : Int) (cache : Cache) (ev : EventRec) : NamedNode :=
  { name := ev.name
    displayName := ev.displayName
    stId := ev.stId
    type := "event"
    compartment := none
    pathwayId := ev.pathwayId
    x := (posOf cache ev.stId).1
    y := (posOf cache ev.stId).2
    width := ns
    height := ns }

/-- The compound node pushed for an accepted input/output occurrence.  Note
the source seeds the position from `cachedPositions[event.stId]` - the
surrounding reaction's id, not the compound's. -/
def mkCompoundNode (ns : Int) (cache : Cache) (evStId : String)
    (c : CompoundRec) (comp : String) : NamedNode :=
  { name := c.name
    displayName := c.displayName
    stId := c.stId
    type := "compound"
    compartment := some comp
    pathwayId := none
    x := (posOf cache evStId).1
    y := (posOf cache evStId).2
    width := ns
    height := ns }

/-- `forEach` over a list of entries where the body may throw: the first
exception aborts the whole loop, as a thrown JavaScript exception would. -/
def foldE {α : Type} (f : BuildState → α → Except String BuildState) :
    BuildState → List α → Except String BuildState
  | st, [] => Except.ok st
  | st, a :: l =>
    match f st a with
    | Except.error e => Except.error e
    | Except.ok st' => foldE f st' l

/-- The message of the TypeError thrown by `null[1]` when a compound
display name has no bracketed compartment. -/
def nullMatchError : String := "TypeError: null has no element 1"

/-- Body of `event.input.forEach((compound) => ...)`. -/
def processInput (hidden : List ReactomeItem) (cache : Cache) (ns : Int)
    (evStId : String) (eventIdx : Nat) (st : BuildState) (entry : Entry) :
    Except String BuildState :=
  match entry with
  | Entry.malformed => Except.ok st
  | Entry.compound c =>
    if visOf hidden c.stId = some "hide" then Except.ok st
    else
      let pushed : Except String BuildState :=
        if lookupName st.nodeMap c.displayName = none
            ∨ visOf hidden c.stId = some "split" then
          match mkCompartment c.displayName with
          | none => Except.error nullMatchError
          | some comp =>
            Except.ok (pushNode st (mkCompoundNode ns cache evStId c comp))
        else Except.ok st
      match pushed with
      | Except.error e => Except.error e
      | Except.ok st2 =>
        Except.ok { st2 with
          links := st2.links ++
            [{ source := (lookupName st2.nodeMap c.displayName).getD 0
               target := eventIdx }] }

/-- Body of `event.output.forEach((compound) => ...)`; identical to the
input body except for the direction of the pushed link. -/
def processOutput (hidden : List ReactomeItem) (cache : Cache) (ns : Int)
    (evStId : String) (eventIdx : Nat) (st : BuildState) (entry : Entry) :
    Except String BuildState :=
  match entry with
  | Entry.malformed => Except.ok st
  | Entry.compound c =>
    if visOf hidden c.stId = some "hide" then Except.ok st
    else
      let pushed : Except String BuildState :=
        if lookupName st.nodeMap c.displayName = none
            ∨ visOf hidden c.stId = some "split" then
          match mkCompartment c.displayName with
          | none => Except.error nullMatchError
          | some comp =>
            Except.ok (pushNode st (mkCompoundNode ns cache evStId c comp))
        else Except.ok st
      match pushed with
      | Except.error e => Except.error e
      | Except.ok st2 =>
        Except.ok { st2 with
          links := st2.links ++
            [{ source := eventIdx
               target := (lookupName st2.nodeMap c.displayName).getD 0 }] }

/-- Body of `events.forEach((event) => ...)`: maybe create the event node
(skipping the whole event when it is fresh and hidden), then process the
input and output arrays. -/
def processEvent (hidden : List ReactomeItem) (cache : Cache) (ns : Int)
    (st : BuildState) (ev : EventRec) : Except String BuildState :=
  let st1opt : Option BuildState :=
    match lookupName st.nodeMap ev.displayName with
    | some _ => some st
    | none =>
      if visOf hidden ev.stId = some "hide" then none
      else some (pushNode st (mkEventNode ns cache ev))
  match st1opt with
  | none => Except.ok st
  | some st1 =>
    match lookupName st1.nodeMap ev.displayName with
    | none => Except.ok st1
    | some eventIdx =>
      match foldE (processInput hidden cache ns ev.stId eventIdx) st1 ev.input with
      | Except.error e => Except.error e
      | Except.ok st2 =>
        foldE (processOutput hidden cache ns ev.stId eventIdx) st2 ev.output

/-- The `graph` computed property: filter to `className === "Reaction"`,
then run the `forEach` body over the remaining events. -/
def buildGraph (events : List EventRec) (hidden : List ReactomeItem)
    (cache : Cache) (ns : Int) : Except String Graph :=
  match foldE (processEvent hidden cache ns)
      { nodes := [], links := [], nodeMap := [] }
      (events.filter (fun ev => ev.className == "Reaction")) with
  | Except.error e => Except.error e
  | Except.ok st => Except.ok { nodes := st.nodes, links := st.links }

/-- The `updateState` toggle: compounds cycle hide - show - split - hide,
everything else flips between hide and show. -/
def updateState (item : ReactomeItem) : ReactomeItem :=
  if item.type = "compound" then
    { item with state :=
        if item.state = "hide" then "show"
        else if item.state = "show" then "split" else "hide" }
  else
    { item with state := if item.state = "hide" then "show" else "hide" }

/-- Extract the graph from a build result (empty graph on error). -/
def graphOf (r : Except String Graph) : Graph :=
  match r with
  | Except.ok g => g
  | Except.error _ => { nodes := [], links := [] }

/-! ### Persisted-settings initialisation (section of the script before the
computed properties).

`localStorage.getItem` returns `string | null`; it is an external browser
API, modelled by an `Option String` argument.  `JSON.parse` is likewise an
external primitive; its outcome (parsed list, or an exception caught by the
surrounding `try`) is modelled by an `Option (List ReactomeItem)` argument.
JavaScript numbers are modelled by `JsNum`: a rational, or `NaN`; the
numeric coercion `+s` is modelled for the decimal-literal forms (sign,
digits, optional fraction); exotic forms (hex, exponents, `Infinity`) are
outside the model and irrelevant to the claims. -/

/-- A JavaScript number: a finite value or `NaN`. -/
inductive JsNum where
  | nan
  | num (q : Rat)
deriving DecidableEq

/-- The JavaScript whitespace stripped by `ToNumber` (common forms). -/
def isJsWs (c : Char) : Bool := c = ' ' ∨ c = '\t' ∨ c = '\n' ∨ c = '\r'

/-- Strip leading and trailing whitespace. -/
def trimChars (cs : List Char) : List Char :=
  ((cs.dropWhile isJsWs).reverse.dropWhile isJsWs).reverse

/-- Digit-string to natural number, `none` when empty or non-digit. -/
def parseNatDigits (cs : List Char) : Option Nat :=
  if cs = [] then none
  else if cs.all Char.isDigit then
    some (cs.foldl (fun acc c => acc * 10 + (c.toNat - 48)) 0)
  else none

/-- An unsigned decimal literal: `digits`, `digits.digits`, `.digits`
or `digits.` (all accepted by JavaScript `ToNumber`). -/
def parseUnsigned (cs : List Char) : Option Rat :=
  match cs.splitOn '.' with
  | [intPart] => (parseNatDigits intPart).map (fun n => (n : Rat))
  | [intPart, fracPart] =>
    if intPart = [] ∧ fracPart = [] then none
    else
      match (if intPart = [] then some 0 else parseNatDigits intPart),
          (if fracPart = [] then some 0 else parseNatDigits fracPart) with
      | some i, some f =>
        some ((i : Rat) + (f : Rat) / ((10 : Rat) ^ fracPart.length))
      | _, _ => none
  | _ => none

/-- A signed decimal literal. -/
def parseSigned (cs : List Char) : Option Rat :=
  match cs with
  | '-' :: rest => (parseUnsigned rest).map (fun q => -q)
  | '+' :: rest => parseUnsigned rest
  | _ => parseUnsigned cs

/-- JavaScript `ToNumber` on a string (`+s`): whitespace-only is `0`,
a decimal literal is its value, anything else is `NaN`. -/
def jsStringToNumber (s : String) : JsNum :=
  let t := trimChars s.data
  if t = [] then JsNum.num 0
  else
    match parseSigned t with
    | some q => JsNum.num q
    | none => JsNum.nan

/-- `+(localStorage.getItem(key) || dflt)` for the numeric settings
`fontSize`, `nodeSize`, `padding`, `rounded`: a missing or empty stored
string falls through `||` to the numeric default, anything else goes
through `ToNumber`. -/
def initNumSetting (stored : Option String) (dflt : Rat) : JsNum :=
  match stored with
  | none => JsNum.num dflt
  | some s => if s = "" then JsNum.num dflt else jsStringToNumber s

/-- `try { x = JSON.parse(getItem(key) || "[]") } catch { x = [] }` for the
list settings `pathways`, `hidden`, `interest`: the parse outcome is the
argument, a thrown parse error (`none`) yields the empty list. -/
def initListSetting (parsed : Option (List ReactomeItem)) : List ReactomeItem :=
  match parsed with
  | some l => l
  | none => []

/-- `localStorage.getItem("backgroundDisplay") as BackgroundOptions ||
'none'` (and the analogous `compoundColor` / `reactionColor` reads): the
TypeScript cast does nothing at runtime, so any non-empty stored string is
kept verbatim. -/
def initEnumSetting (stored : Option String) (dflt : String) : String :=
  match stored with
  | none => dflt
  | some s => if s = "" then dflt else s

/-! ### Predicates used by the claim statements -/

/-- No node of the graph carries the given stable id, and hence no edge
endpoint resolves to a node with that id. -/
def stIdAbsent (g : Graph) (sid : String) : Prop :=
  (∀ n ∈ g.nodes, n.stId ≠ sid)
  ∧ (∀ l ∈ g.links,
      (∀ n, g.nodes.get? l.source = some n → n.stId ≠ sid)
      ∧ (∀ n, g.nodes.get? l.target = some n → n.stId ≠ sid))

/-- Deduplication discipline between two nodes (in list order): two event
nodes never share a display name; two compound nodes share a display name
only when the later one was pushed under a `split` visibility entry. -/
def nodeDistinct (hidden : List ReactomeItem) (a b : NamedNode) : Prop :=
  (a.type = "event" → b.type = "event" → a.displayName ≠ b.displayName)
  ∧ (a.type = "compound" → b.type = "compound" →
      a.displayName = b.displayName → visOf hidden b.stId = some "split")

/-- A node instance produced for the compound `c`: same stable id, same
display name, compound type. -/
def splitMatches (c : CompoundRec) (n : NamedNode) : Bool :=
  n.stId == c.stId && n.displayName == c.displayName && n.type == "compound"

/-- Entries that pass the source's well-formedness guard. -/
def entryIsCompound : Entry → Bool
  | Entry.compound _ => true
  | Entry.malformed => false

/-- The same event with the malformed input/output entries deleted. -/
def dropMalformed (ev : EventRec) : EventRec :=
  { ev with
    input := ev.input.filter entryIsCompound
    output := ev.output.filter entryIsCompound }

/-- The compound record has the bracketed compartment annotation that the
spec requires of a well-formed compound record (its absence is a
malformed-data condition). -/
def hasCompartment (c : CompoundRec) : Prop :=
  ∃ comp, mkCompartment c.displayName = some comp

/-- The types of a link's two endpoints, for classifying directions. -/
def linkKind (g : Graph) (l : Link) (s t : String) : Bool :=
  match g.nodes.get? l.source, g.nodes.get? l.target with
  | some a, some b => a.type == s && b.type == t
  | _, _ => false

/-! ### Concrete inputs used by counterexamples and witnesses -/

/-- Input record whose display name carries no bracketed compartment. -/
def bracketlessCompound : CompoundRec :=
  { stId := "R-ALL-29356", displayName := "Water", name := ["Water"] }

/-- A reaction consuming the bracket-less compound. -/
def bracketlessEvent : EventRec :=
  { stId := "R-HSA-1"
    displayName := "hydrolysis"
    name := ["hydrolysis"]
    className := "Reaction"
    input := [Entry.compound bracketlessCompound]
    output := []
    pathwayId := none }

/-- A compound visibility entry in state `show` (C4 witness). -/
def wCompoundItem : ReactomeItem :=
  { stId := "R-ALL-113592", type := "compound", name := ["ATP"]
    displayName := "ATP [cytosol]", state := "show" }

/-- A reaction visibility entry (used by the C4 and C10 witnesses). -/
def wEventItem (st : String) : ReactomeItem :=
  { stId := "R-HSA-2", type := "event", name := ["kinase step"]
    displayName := "kinase step", state := st }

/-- ATP input compound (C2/C7 witnesses). -/
def w2cpdA : CompoundRec :=
  { stId := "R-ALL-a1", displayName := "ATP [cytosol]", name := ["ATP"] }

/-- ADP input compound (C2/C7 witnesses). -/
def w2cpdB : CompoundRec :=
  { stId := "R-ALL-b1", displayName := "ADP [cytosol]", name := ["ADP"] }

/-- A visible reaction (C2 witness). -/
def w2evA : EventRec :=
  { stId := "R-HSA-ea", displayName := "kinase reaction"
    name := ["kinase reaction"], className := "Reaction"
    input := [Entry.compound w2cpdA], output := [], pathwayId := none }

/-- A hidden reaction sharing `w2evA`'s display name (C2 witness). -/
def w2evB : EventRec :=
  { stId := "R-HSA-eb", displayName := "kinase reaction"
    name := ["kinase reaction"], className := "Reaction"
    input := [Entry.compound w2cpdB], output := [], pathwayId := none }

/-- Visibility entries hiding the reaction `R-HSA-eb` (C2 witness). -/
def w2hidden : List ReactomeItem :=
  [{ stId := "R-HSA-eb", type := "event", name := ["kinase reaction"]
     displayName := "kinase reaction", state := "hide" }]

/-- Event list of the C2 witness. -/
def w2events : List EventRec := [w2evA, w2evB]

/-- A reaction consuming ATP and producing ADP (C7 witness). -/
def w7ev : EventRec :=
  { stId := "R-HSA-ec", displayName := "hydrolase reaction"
    name := ["hydrolase reaction"], className := "Reaction"
    input := [Entry.compound w2cpdA]
    output := [Entry.compound w2cpdB], pathwayId := none }

/-- Visibility entries hiding the compound `R-ALL-a1` (C7 witness). -/
def w7hidden : List ReactomeItem :=
  [{ stId := "R-ALL-a1", type := "compound", name := ["ATP"]
     displayName := "ATP [cytosol]", state := "hide" }]

/-- Pyruvate, marked `split` in `w6hidden` (C5/C6 witnesses). -/
def w6cpd : CompoundRec :=
  { stId := "R-ALL-s1", displayName := "PYR [cytosol]", name := ["PYR"] }

/-- First reaction consuming the split compound (C5/C6 witnesses). -/
def w6e1 : EventRec :=
  { stId := "R-HSA-e1", displayName := "step one"
    name := ["step one"], className := "Reaction"
    input := [Entry.compound w6cpd], output := [], pathwayId := none }

/-- Second reaction consuming the split compound (C5/C6 witnesses). -/
def w6e2 : EventRec :=
  { stId := "R-HSA-e2", displayName := "step two"
    name := ["step two"], className := "Reaction"
    input := [Entry.compound w6cpd], output := [], pathwayId := none }

/-- Visibility entries marking the compound `R-ALL-s1` as `split`. -/
def w6hidden : List ReactomeItem :=
  [{ stId := "R-ALL-s1", type := "compound", name := ["PYR"]
     displayName := "PYR [cytosol]", state := "split" }]

/-- Event list of the C5/C6 witnesses. -/
def w6events : List EventRec := [w6e1, w6e2]

/-- Glucose input (C8 witness). -/
def w8c1 : CompoundRec :=
  { stId := "R-ALL-g1", displayName := "GLC [cytosol]", name := ["GLC"] }

/-- ATP input (C8 witness). -/
def w8c2 : CompoundRec :=
  { stId := "R-ALL-g2", displayName := "ATP [cytosol]", name := ["ATP"] }

/-- Glucose-6-phosphate output (C8 witness). -/
def w8c3 : CompoundRec :=
  { stId := "R-ALL-g3", displayName := "G6P [cytosol]", name := ["G6P"] }

/-- The two-inputs/one-output reaction of the C8 witness. -/
def w8ev : EventRec :=
  { stId := "R-HSA-hk", displayName := "hexokinase"
    name := ["hexokinase"], className := "Reaction"
    input := [Entry.compound w8c1, Entry.compound w8c2]
    output := [Entry.compound w8c3], pathwayId := none }

/-- Input compound whose display name equals the reaction's display name
(C8 counterexample). -/
def cex8c1 : CompoundRec :=
  { stId := "R-ALL-x1", displayName := "GLC [cytosol]", name := ["GLC"] }

/-- A reaction with two well-formed inputs and one well-formed output whose
three compounds have pairwise distinct display names, but whose own display
name collides with the first input's (C8 counterexample). -/
def cex8ev : EventRec :=
  { stId := "R-HSA-x1", displayName := "GLC [cytosol]"
    name := ["GLC"], className := "Reaction"
    input := [Entry.compound cex8c1, Entry.compound w8c2]
    output := [Entry.compound w8c3], pathwayId := none }

/-! ### Loop infrastructure -/

theorem foldE_append {α : Type} (f : BuildState → α → Except String BuildState)
    (l₁ l₂ : List α) : ∀ st, foldE f st (l₁ ++ l₂) =
      match foldE f st l₁ with
      | Except.error e => Except.error e
      | Except.ok m => foldE f m l₂ := by
  induction l₁ with
  | nil => intro st; rfl
  | cons a l ih =>
    intro st
    simp only [List.cons_append, foldE]
    cases f st a with
    | error e => rfl
    | ok st' => exact ih st'

theorem foldE_append_ok {α : Type} {f : BuildState → α → Except String BuildState}
    {l₁ l₂ : List α} {st st' : BuildState}
    (h : foldE f st (l₁ ++ l₂) = Except.ok st') :
    ∃ m, foldE f st l₁ = Except.ok m ∧ foldE f m l₂ = Except.ok st' := by
  rw [foldE_append] at h
  cases hm : foldE f st l₁ with
  | error e => rw [hm] at h; exact absurd h (by simp)
  | ok m => rw [hm] at h; exact ⟨m, rfl, h⟩

theorem foldE_cons_ok {α : Type} {f : BuildState → α → Except String BuildState}
    {a : α} {l : List α} {st st' : BuildState}
    (h : foldE f st (a :: l) = Except.ok st') :
    ∃ m, f st a = Except.ok m ∧ foldE f m l = Except.ok st' := by
  simp only [foldE] at h
  cases hm : f st a with
  | error e => rw [hm] at h; exact absurd h (by simp)
  | ok m => rw [hm] at h; exact ⟨m, rfl, h⟩

theorem foldE_preserve {α : Type} {P : BuildState → Prop}
    {f : BuildState → α → Except String BuildState}
    (hf : ∀ st a st', P st → f st a = Except.ok st' → P st') :
    ∀ (l : List α) (st st'), P st → foldE f st l = Except.ok st' → P st' := by
  intro l
  induction l with
  | nil =>
    intro st st' hP h
    simp only [foldE, Except.ok.injEq] at h
    exact h ▸ hP
  | cons a l ih =>
    intro st st' hP h
    obtain ⟨m, hm, hrest⟩ := foldE_cons_ok h
    exact ih m st' (hf st a m hP hm) hrest

/-! ### Step characterisation lemmas -/

/-- What an accepted `ok` step of the input loop can do to the node list
and the name map: leave both alone (malformed entry, hidden compound, or a
deduplicated reuse), or push exactly one compound node. -/
theorem processInput_ok_cases {hidden : List ReactomeItem} {cache : Cache}
    {ns : Int} {evStId : String} {evIdx : Nat} {st st' : BuildState}
    {entry : Entry}
    (h : processInput hidden cache ns evStId evIdx st entry = Except.ok st') :
    (st'.nodes = st.nodes ∧ st'.nodeMap = st.nodeMap)
    ∨ (∃ c comp, entry = Entry.compound c
        ∧ visOf hidden c.stId ≠ some "hide"
        ∧ (lookupName st.nodeMap c.displayName = none
            ∨ visOf hidden c.stId = some "split")
        ∧ mkCompartment c.displayName = some comp
        ∧ st'.nodes = st.nodes ++ [mkCompoundNode ns cache evStId c comp]
        ∧ st'.nodeMap = (c.displayName, st.nodes.length) :: st.nodeMap) := by
  cases entry with
  | malformed =>
    simp only [processInput, Except.ok.injEq] at h
    exact Or.inl (by rw [← h]; exact ⟨rfl, rfl⟩)
  | compound c =>
    by_cases hhide : visOf hidden c.stId = some "hide"
    · simp only [processInput, if_pos hhide, Except.ok.injEq] at h
      exact Or.inl (by rw [← h]; exact ⟨rfl, rfl⟩)
    · by_cases hcond : lookupName st.nodeMap c.displayName = none
          ∨ visOf hidden c.stId = some "split"
      · cases hcomp : mkCompartment c.displayName with
        | none =>
          simp only [processInput, if_neg hhide, if_pos hcond, hcomp] at h
          cases h
        | some comp =>
          simp only [processInput, if_neg hhide, if_pos hcond, hcomp,
            Except.ok.injEq] at h
          refine Or.inr ⟨c, comp, rfl, hhide, hcond, hcomp, ?_, ?_⟩
          · rw [← h]; simp [pushNode, mkCompoundNode]
          · rw [← h]; simp [pushNode, mkCompoundNode]
      · simp only [processInput, if_neg hhide, if_neg hcond,
          Except.ok.injEq] at h
        exact Or.inl (by rw [← h]; exact ⟨rfl, rfl⟩)

/-- The same characterisation for the output loop (the two loop bodies
differ only in the direction of the pushed link). -/
theorem processOutput_ok_cases {hidden : List ReactomeItem} {cache : Cache}
    {ns : Int} {evStId : String} {evIdx : Nat} {st st' : BuildState}
    {entry : Entry}
    (h : processOutput hidden cache ns evStId evIdx st entry = Except.ok st') :
    (st'.nodes = st.nodes ∧ st'.nodeMap = st.nodeMap)
    ∨ (∃ c comp, entry = Entry.compound c
        ∧ visOf hidden c.stId ≠ some "hide"
        ∧ (lookupName st.nodeMap c.displayName = none
            ∨ visOf hidden c.stId = some "split")
        ∧ mkCompartment c.displayName = some comp
        ∧ st'.nodes = st.nodes ++ [mkCompoundNode ns cache evStId c comp]
        ∧ st'.nodeMap = (c.displayName, st.nodes.length) :: st.nodeMap) := by
  cases entry with
  | malformed =>
    simp only [processOutput, Except.ok.injEq] at h
    exact Or.inl (by rw [← h]; exact ⟨rfl, rfl⟩)
  | compound c =>
    by_cases hhide : visOf hidden c.stId = some "hide"
    · simp only [processOutput, if_pos hhide, Except.ok.injEq] at h
      exact Or.inl (by rw [← h]; exact ⟨rfl, rfl⟩)
    · by_cases hcond : lookupName st.nodeMap c.displayName = none
          ∨ visOf hidden c.stId = some "split"
      · cases hcomp : mkCompartment c.displayName with
        | none =>
          simp only [processOutput, if_neg hhide, if_pos hcond, hcomp] at h
          cases h
        | some comp =>
          simp only [processOutput, if_neg hhide, if_pos hcond, hcomp,
            Except.ok.injEq] at h
          refine Or.inr ⟨c, comp, rfl, hhide, hcond, hcomp, ?_, ?_⟩
          · rw [← h]; simp [pushNode, mkCompoundNode]
          · rw [← h]; simp [pushNode, mkCompoundNode]
      · simp only [processOutput, if_neg hhide, if_neg hcond,
          Except.ok.injEq] at h
        exact Or.inl (by rw [← h]; exact ⟨rfl, rfl⟩)

/-- Preservation of a property of the node list and name map across one
accepted input entry; the property must be closed under a compound push. -/
theorem processInput_preserve {Q : List NamedNode → List (String × Nat) → Prop}
    {hidden : List ReactomeItem} {cache : Cache} {ns : Int} {evStId : String}
    {evIdx : Nat} {st st' : BuildState} {entry : Entry}
    (hpush : ∀ nodes nmap (c : CompoundRec) comp,
      Q nodes nmap →
      visOf hidden c.stId ≠ some "hide" →
      (lookupName nmap c.displayName = none
        ∨ visOf hidden c.stId = some "split") →
      mkCompartment c.displayName = some comp →
      Q (nodes ++ [mkCompoundNode ns cache evStId c comp])
        ((c.displayName, nodes.length) :: nmap))
    (h : processInput hidden cache ns evStId evIdx st entry = Except.ok st')
    (hQ : Q st.nodes st.nodeMap) : Q st'.nodes st'.nodeMap := by
  rcases processInput_ok_cases h with ⟨h1, h2⟩
    | ⟨c, comp, _, hnh, hcond, hcomp, h1, h2⟩
  · rw [h1, h2]; exact hQ
  · rw [h1, h2]; exact hpush _ _ _ _ hQ hnh hcond hcomp

/-- Preservation across one accepted output entry. -/
theorem processOutput_preserve {Q : List NamedNode → List (String × Nat) → Prop}
    {hidden : List ReactomeItem} {cache : Cache} {ns : Int} {evStId : String}
    {evIdx : Nat} {st st' : BuildState} {entry : Entry}
    (hpush : ∀ nodes nmap (c : CompoundRec) comp,
      Q nodes nmap →
      visOf hidden c.stId ≠ some "hide" →
      (lookupName nmap c.displayName = none
        ∨ visOf hidden c.stId = some "split") →
      mkCompartment c.displayName = some comp →
      Q (nodes ++ [mkCompoundNode ns cache evStId c comp])
        ((c.displayName, nodes.length) :: nmap))
    (h : processOutput hidden cache ns evStId evIdx st entry = Except.ok st')
    (hQ : Q st.nodes st.nodeMap) : Q st'.nodes st'.nodeMap := by
  rcases processOutput_ok_cases h with ⟨h1, h2⟩
    | ⟨c, comp, _, hnh, hcond, hcomp, h1, h2⟩
  · rw [h1, h2]; exact hQ
  · rw [h1, h2]; exact hpush _ _ _ _ hQ hnh hcond hcomp

/-- Preservation across one event of the outer loop: the property must be
closed under pushing a fresh non-hidden event node and under the compound
pushes of the two entry loops. -/
theorem processEvent_preserve {Q : List NamedNode → List (String × Nat) → Prop}
    {hidden : List ReactomeItem} {cache : Cache} {ns : Int}
    {st st' : BuildState} {ev : EventRec}
    (hpushEv : ∀ nodes nmap (e : EventRec),
      Q nodes nmap →
      lookupName nmap e.displayName = none →
      ¬ visOf hidden e.stId = some "hide" →
      Q (nodes ++ [mkEventNode ns cache e]) ((e.displayName, nodes.length) :: nmap))
    (hpush : ∀ (evStId : String) nodes nmap (c : CompoundRec) comp,
      Q nodes nmap →
      visOf hidden c.stId ≠ some "hide" →
      (lookupName nmap c.displayName = none
        ∨ visOf hidden c.stId = some "split") →
      mkCompartment c.displayName = some comp →
      Q (nodes ++ [mkCompoundNode ns cache evStId c comp])
        ((c.displayName, nodes.length) :: nmap))
    (h : processEvent hidden cache ns st ev = Except.ok st')
    (hQ : Q st.nodes st.nodeMap) : Q st'.nodes st'.nodeMap := by
  have hfolds : ∀ (st1 st' : BuildState) (evIdx : Nat),
      (match foldE (processInput hidden cache ns ev.stId evIdx) st1 ev.input with
        | Except.error e => Except.error e
        | Except.ok st2 =>
          foldE (processOutput hidden cache ns ev.stId evIdx) st2 ev.output) =
        Except.ok st' →
      Q st1.nodes st1.nodeMap → Q st'.nodes st'.nodeMap := by
    intro st1 st'' evIdx hmatch hQ1
    cases hfi : foldE (processInput hidden cache ns ev.stId evIdx) st1 ev.input with
    | error e => rw [hfi] at hmatch; cases hmatch
    | ok st2 =>
      rw [hfi] at hmatch
      have hQ2 : Q st2.nodes st2.nodeMap :=
        foldE_preserve (P := fun s => Q s.nodes s.nodeMap)
          (fun s a s' hP hs => processInput_preserve (hpush ev.stId) hs hP)
          ev.input st1 st2 hQ1 hfi
      exact foldE_preserve (P := fun s => Q s.nodes s.nodeMap)
        (fun s a s' hP hs => processOutput_preserve (hpush ev.stId) hs hP)
        ev.output st2 st'' hQ2 hmatch
  unfold processEvent at h
  cases hl : lookupName st.nodeMap ev.displayName with
  | some k =>
    rw [hl] at h
    simp only [hl] at h
    exact hfolds st st' k h hQ
  | none =>
    rw [hl] at h
    by_cases hh : visOf hidden ev.stId = some "hide"
    · simp only [if_pos hh] at h
      cases h
      exact hQ
    · simp only [if_neg hh] at h
      have hQ1 : Q (pushNode st (mkEventNode ns cache ev)).nodes
          (pushNode st (mkEventNode ns cache ev)).nodeMap := by
        simp only [pushNode, mkEventNode]
        exact hpushEv st.nodes st.nodeMap ev hQ hl hh
      have hlook : lookupName (pushNode st (mkEventNode ns cache ev)).nodeMap
          ev.displayName = some st.nodes.length := by
        simp [pushNode, mkEventNode, lookupName]
      rw [hlook] at h
      exact hfolds _ st' _ h hQ1

/-- Preservation through the whole build. -/
theorem buildGraph_preserve {Q : List NamedNode → List (String × Nat) → Prop}
    {events : List EventRec} {hidden : List ReactomeItem} {cache : Cache}
    {ns : Int} {g : Graph}
    (hpushEv : ∀ nodes nmap (e : EventRec),
      Q nodes nmap →
      lookupName nmap e.displayName = none →
      ¬ visOf hidden e.stId = some "hide" →
      Q (nodes ++ [mkEventNode ns cache e]) ((e.displayName, nodes.length) :: nmap))
    (hpush : ∀ (evStId : String) nodes nmap (c : CompoundRec) comp,
      Q nodes nmap →
      visOf hidden c.stId ≠ some "hide" →
      (lookupName nmap c.displayName = none
        ∨ visOf hidden c.stId = some "split") →
      mkCompartment c.displayName = some comp →
      Q (nodes ++ [mkCompoundNode ns cache evStId c comp])
        ((c.displayName, nodes.length) :: nmap))
    (h : buildGraph events hidden cache ns = Except.ok g)
    (hQ : Q [] []) : ∃ nmap, Q g.nodes nmap := by
  unfold buildGraph at h
  cases hf : foldE (processEvent hidden cache ns)
      { nodes := [], links := [], nodeMap := [] }
      (events.filter (fun ev => ev.className == "Reaction")) with
  | error e => rw [hf] at h; cases h
  | ok st =>
    rw [hf] at h
    have hst : Q st.nodes st.nodeMap :=
      foldE_preserve (P := fun s => Q s.nodes s.nodeMap)
        (fun s a s' hP hs => processEvent_preserve hpushEv hpush hs hP)
        _ _ st hQ hf
    cases h
    exact ⟨st.nodeMap, hst⟩

/-! ### Hidden stable ids never reach the graph (claims C2 and C7) -/

/-- Every push in the builder is guarded by the `hide` check on the pushed
record's stable id, so a stable id whose visibility entry is `hide` never
appears among the built nodes. -/
theorem hidden_stId_not_in_nodes {events : List EventRec}
    {hidden : List ReactomeItem} {cache : Cache} {ns : Int} {g : Graph}
    {sid : String}
    (hhide : visOf hidden sid = some "hide")
    (hok : buildGraph events hidden cache ns = Except.ok g) :
    ∀ n ∈ g.nodes, n.stId ≠ sid := by
  have hEv : ∀ (nodes : List NamedNode) (nmap : List (String × Nat))
      (e : EventRec), (∀ n ∈ nodes, n.stId ≠ sid) →
      lookupName nmap e.displayName = none →
      ¬ visOf hidden e.stId = some "hide" →
      ∀ n ∈ nodes ++ [mkEventNode ns cache e], n.stId ≠ sid := by
    intro nodes nmap e hQ hl hh n hn
    rcases List.mem_append.mp hn with hn | hn
    · exact hQ n hn
    · rcases List.mem_singleton.mp hn with rfl
      simp only [mkEventNode]
      intro hsid
      exact hh (by rw [hsid]; exact hhide)
  have hCpd : ∀ (evStId : String) (nodes : List NamedNode)
      (nmap : List (String × Nat)) (c : CompoundRec) (comp : String),
      (∀ n ∈ nodes, n.stId ≠ sid) →
      visOf hidden c.stId ≠ some "hide" →
      (lookupName nmap c.displayName = none
        ∨ visOf hidden c.stId = some "split") →
      mkCompartment c.displayName = some comp →
      ∀ n ∈ nodes ++ [mkCompoundNode ns cache evStId c comp], n.stId ≠ sid := by
    intro evStId nodes nmap c comp hQ hnh hcond hcomp n hn
    rcases List.mem_append.mp hn with hn | hn
    · exact hQ n hn
    · rcases List.mem_singleton.mp hn with rfl
      simp only [mkCompoundNode]
      intro hsid
      exact hnh (by rw [hsid]; exact hhide)
  obtain ⟨nmap, h⟩ := buildGraph_preserve
    (Q := fun nodes _ => ∀ n ∈ nodes, n.stId ≠ sid)
    (fun nodes nmap e hQ hl hh => hEv nodes nmap e hQ hl hh)
    (fun evStId nodes nmap c comp hQ hnh hcond hcomp =>
      hCpd evStId nodes nmap c comp hQ hnh hcond hcomp)
    hok (by intro n hn; cases hn)
  exact h

/-- Claim C2: a reaction record whose visibility entry (found by stable id)
is in state `hide` contributes no node to the built graph - no node carries
its stable id - and no edge's source or target resolves to a node with that
id.  The theorem is unconditional in the shape of the event list, so it
covers in particular the case where another reaction with the same display
name was processed earlier in the same build (the hidden record is then
merged into that reaction's node rather than given one of its own). -/
theorem claim_C2_hidden_reaction_excluded
    (events : List EventRec) (hidden : List ReactomeItem) (cache : Cache)
    (ns : Int) (ev : EventRec) (g : Graph)
    (hev : ev ∈ events) (hcls : ev.className = "Reaction")
    (hhide : visOf hidden ev.stId = some "hide")
    (hok : buildGraph events hidden cache ns = Except.ok g) :
    stIdAbsent g ev.stId := by
  have hnodes := hidden_stId_not_in_nodes hhide hok
  refine ⟨hnodes, ?_⟩
  intro l hl
  exact ⟨fun n hn => hnodes n (List.get?_mem hn),
    fun n hn => hnodes n (List.get?_mem hn)⟩

/-- Witness for claim C2: a build containing a visible reaction and a
hidden reaction with the same display name. -/
theorem claim_C2_hidden_reaction_excluded_witness :
    stIdAbsent (graphOf (buildGraph w2events w2hidden [] 70)) "R-HSA-eb" :=
  claim_C2_hidden_reaction_excluded w2events w2hidden [] 70 w2evB
    (graphOf (buildGraph w2events w2hidden [] 70))
    (by decide) rfl rfl rfl

/-- Claim C7: a compound whose visibility entry is in state `hide`
contributes no node to the built graph for any of its occurrences as input
or output of any reaction, and no edge's source or target resolves to a
node with its stable id. -/
theorem claim_C7_hidden_compound_excluded
    (events : List EventRec) (hidden : List ReactomeItem) (cache : Cache)
    (ns : Int) (ev : EventRec) (c : CompoundRec) (g : Graph)
    (hev : ev ∈ events)
    (hocc : Entry.compound c ∈ ev.input ∨ Entry.compound c ∈ ev.output)
    (hhide : visOf hidden c.stId = some "hide")
    (hok : buildGraph events hidden cache ns = Except.ok g) :
    stIdAbsent g c.stId := by
  have hnodes := hidden_stId_not_in_nodes hhide hok
  refine ⟨hnodes, ?_⟩
  intro l hl
  exact ⟨fun n hn => hnodes n (List.get?_mem hn),
    fun n hn => hnodes n (List.get?_mem hn)⟩

/-- Witness for claim C7: ATP is hidden; the built graph for a reaction
consuming it contains no node or edge for it. -/
theorem claim_C7_hidden_compound_excluded_witness :
    stIdAbsent (graphOf (buildGraph [w7ev] w7hidden [] 70)) "R-ALL-a1" :=
  claim_C7_hidden_compound_excluded [w7ev] w7hidden [] 70 w7ev w2cpdA
    (graphOf (buildGraph [w7ev] w7hidden [] 70))
    (by decide) (Or.inl (by decide)) rfl rfl

/-! ### Claim C3: malformed entries are inert -/

/-- Filtering a loop's list by `p` changes nothing when the body is the
identity on elements failing `p`. -/
theorem foldE_filter_id {α : Type} {f : BuildState → α → Except String BuildState}
    {p : α → Bool}
    (hid : ∀ st a, p a = false → f st a = Except.ok st) :
    ∀ (l : List α) (st : BuildState),
      foldE f st (l.filter p) = foldE f st l := by
  intro l
  induction l with
  | nil => intro st; rfl
  | cons a l ih =>
    intro st
    cases hpa : p a with
    | true =>
      rw [List.filter_cons_of_pos hpa]
      simp only [foldE]
      cases f st a with
      | error e => rfl
      | ok st' => exact ih st'
    | false =>
      rw [List.filter_cons_of_neg (by simp [hpa])]
      rw [ih]
      simp only [foldE, hid st a hpa]

/-- A mapped loop equals the loop with the map fused into the body. -/
theorem foldE_map {α β : Type} {f : BuildState → β → Except String BuildState}
    {h : α → β} {f' : BuildState → α → Except String BuildState}
    (heq : ∀ st a, f st (h a) = f' st a) :
    ∀ (l : List α) (st : BuildState),
      foldE f st (l.map h) = foldE f' st l := by
  intro l
  induction l with
  | nil => intro st; rfl
  | cons a l ih =>
    intro st
    simp only [List.map_cons, foldE, heq]
    cases f' st a with
    | error e => rfl
    | ok st' => exact ih st'

/-- Deleting the malformed entries of one event does not change what the
event body does. -/
theorem processEvent_dropMalformed (hidden : List ReactomeItem)
    (cache : Cache) (ns : Int) (st : BuildState) (ev : EventRec) :
    processEvent hidden cache ns st (dropMalformed ev) =
      processEvent hidden cache ns st ev := by
  have hfin : ∀ (st1 : BuildState) (evIdx : Nat),
      foldE (processInput hidden cache ns ev.stId evIdx) st1
        (ev.input.filter entryIsCompound) =
      foldE (processInput hidden cache ns ev.stId evIdx) st1 ev.input :=
    fun st1 evIdx => foldE_filter_id
      (fun s a hpa => by
        cases a with
        | compound c => simp [entryIsCompound] at hpa
        | malformed => rfl)
      ev.input st1
  have hfout : ∀ (st2 : BuildState) (evIdx : Nat),
      foldE (processOutput hidden cache ns ev.stId evIdx) st2
        (ev.output.filter entryIsCompound) =
      foldE (processOutput hidden cache ns ev.stId evIdx) st2 ev.output :=
    fun st2 evIdx => foldE_filter_id
      (fun s a hpa => by
        cases a with
        | compound c => simp [entryIsCompound] at hpa
        | malformed => rfl)
      ev.output st2
  unfold processEvent
  simp only [dropMalformed]
  simp only [hfin, hfout]
  rfl

/-- Claim C3: input/output entries that are not well-formed compound
records are skipped without throwing and without contributing any node or
edge, and processing of the remaining entries continues - formally, every
build equals the build on the input with all malformed entries deleted. -/
theorem claim_C3_malformed_entries_skipped
    (events : List EventRec) (hidden : List ReactomeItem) (cache : Cache)
    (ns : Int) :
    buildGraph (events.map dropMalformed) hidden cache ns =
      buildGraph events hidden cache ns := by
  unfold buildGraph
  have h1 : (events.map dropMalformed).filter
        (fun ev => ev.className == "Reaction")
      = (events.filter (fun ev => ev.className == "Reaction")).map
          dropMalformed := by
    rw [List.filter_map]
    rfl
  rw [h1, foldE_map (fun st ev => processEvent_dropMalformed hidden cache ns st ev)]

/-! ### Claim C5: deduplication invariant -/

/-- Claim C5: the built node list never contains two event nodes with the
same display name, and contains two compound nodes with the same display
name only when the later one was pushed for a compound whose visibility
entry is `split`. -/
theorem claim_C5_node_dedup_invariant
    (events : List EventRec) (hidden : List ReactomeItem) (cache : Cache)
    (ns : Int) (g : Graph)
    (hok : buildGraph events hidden cache ns = Except.ok g) :
    g.nodes.Pairwise (nodeDistinct hidden) := by
  have hEv : ∀ (nodes : List NamedNode) (nmap : List (String × Nat))
      (e : EventRec),
      ((∀ n ∈ nodes, lookupName nmap n.displayName ≠ none)
        ∧ nodes.Pairwise (nodeDistinct hidden)) →
      lookupName nmap e.displayName = none →
      ¬ visOf hidden e.stId = some "hide" →
      ((∀ n ∈ nodes ++ [mkEventNode ns cache e],
          lookupName ((e.displayName, nodes.length) :: nmap) n.displayName ≠ none)
        ∧ (nodes ++ [mkEventNode ns cache e]).Pairwise (nodeDistinct hidden)) := by
    intro nodes nmap e ⟨hQ1, hQ2⟩ hl hh
    have hne : ∀ a ∈ nodes, a.displayName ≠ e.displayName := by
      intro a ha heq
      exact hQ1 a ha (by rw [heq]; exact hl)
    constructor
    · intro n hn
      by_cases hd : n.displayName = e.displayName
      · simp [lookupName, hd]
      · simp only [lookupName, if_neg hd]
        rcases List.mem_append.mp hn with hn | hn
        · exact hQ1 n hn
        · rcases List.mem_singleton.mp hn with rfl
          exact (hd rfl).elim
    · refine List.pairwise_append.mpr ⟨hQ2, List.pairwise_singleton .., ?_⟩
      intro a ha b hb
      rcases List.mem_singleton.mp hb with rfl
      refine ⟨?_, ?_⟩
      · intro h1 h2
        simpa [mkEventNode] using hne a ha
      · intro h1 h2 heq
        exact absurd heq (by simpa [mkEventNode] using hne a ha)
  have hCpd : ∀ (evStId : String) (nodes : List NamedNode)
      (nmap : List (String × Nat)) (c : CompoundRec) (comp : String),
      ((∀ n ∈ nodes, lookupName nmap n.displayName ≠ none)
        ∧ nodes.Pairwise (nodeDistinct hidden)) →
      visOf hidden c.stId ≠ some "hide" →
      (lookupName nmap c.displayName = none
        ∨ visOf hidden c.stId = some "split") →
      mkCompartment c.displayName = some comp →
      ((∀ n ∈ nodes ++ [mkCompoundNode ns cache evStId c comp],
          lookupName ((c.displayName, nodes.length) :: nmap) n.displayName ≠ none)
        ∧ (nodes ++ [mkCompoundNode ns cache evStId c comp]).Pairwise
            (nodeDistinct hidden)) := by
    intro evStId nodes nmap c comp ⟨hQ1, hQ2⟩ hnh hcond hcomp
    constructor
    · intro n hn
      by_cases hd : n.displayName = c.displayName
      · simp [lookupName, hd]
      · simp only [lookupName, if_neg hd]
        rcases List.mem_append.mp hn with hn | hn
        · exact hQ1 n hn
        · rcases List.mem_singleton.mp hn with rfl
          exact (hd rfl).elim
    · refine List.pairwise_append.mpr ⟨hQ2, List.pairwise_singleton .., ?_⟩
      intro a ha b hb
      rcases List.mem_singleton.mp hb with rfl
      refine ⟨?_, ?_⟩
      · intro h1 h2
        exact absurd h2 (by simp [mkCompoundNode])
      · intro h1 h2 heq
        rcases hcond with hcond | hcond
        · exact absurd hcond (by
            rw [show (mkCompoundNode ns cache evStId c comp).displayName =
                c.displayName from rfl] at heq
            rw [← heq]
            exact hQ1 a ha)
        · simpa [mkCompoundNode] using hcond
  obtain ⟨nmap, _, hpw⟩ := buildGraph_preserve
    (Q := fun nodes nmap =>
      (∀ n ∈ nodes, lookupName nmap n.displayName ≠ none)
      ∧ nodes.Pairwise (nodeDistinct hidden))
    hEv hCpd hok ⟨(fun n hn => absurd hn (List.not_mem_nil n)), List.Pairwise.nil⟩
  exact hpw

/-- Witness for claim C5 on a build containing deliberate `split`
duplicates of one compound. -/
theorem claim_C5_node_dedup_invariant_witness :
    (graphOf (buildGraph w6events w6hidden [] 70)).nodes.Pairwise
      (nodeDistinct w6hidden) :=
  claim_C5_node_dedup_invariant w6events w6hidden [] 70
    (graphOf (buildGraph w6events w6hidden [] 70)) rfl

/-! ### Claim C6: `split` duplicates one node per occurrence -/

/-- An accepted input entry only ever appends to the node list. -/
theorem processInput_nodes_mono {hidden : List ReactomeItem} {cache : Cache}
    {ns : Int} {evStId : String} {evIdx : Nat} {st st' : BuildState}
    {entry : Entry}
    (h : processInput hidden cache ns evStId evIdx st entry = Except.ok st') :
    ∃ d, st'.nodes = st.nodes ++ d := by
  rcases processInput_ok_cases h with ⟨h1, _⟩ | ⟨c, comp, _, _, _, _, h1, _⟩
  · exact ⟨[], by rw [h1, List.append_nil]⟩
  · exact ⟨[mkCompoundNode ns cache evStId c comp], h1⟩

/-- An accepted output entry only ever appends to the node list. -/
theorem processOutput_nodes_mono {hidden : List ReactomeItem} {cache : Cache}
    {ns : Int} {evStId : String} {evIdx : Nat} {st st' : BuildState}
    {entry : Entry}
    (h : processOutput hidden cache ns evStId evIdx st entry = Except.ok st') :
    ∃ d, st'.nodes = st.nodes ++ d := by
  rcases processOutput_ok_cases h with ⟨h1, _⟩ | ⟨c, comp, _, _, _, _, h1, _⟩
  · exact ⟨[], by rw [h1, List.append_nil]⟩
  · exact ⟨[mkCompoundNode ns cache evStId c comp], h1⟩

/-- Loops whose bodies only append to the node list only append. -/
theorem foldE_nodes_mono {α : Type}
    {f : BuildState → α → Except String BuildState}
    (hf : ∀ st a st', f st a = Except.ok st' → ∃ d, st'.nodes = st.nodes ++ d) :
    ∀ (l : List α) (st st' : BuildState),
      foldE f st l = Except.ok st' → ∃ d, st'.nodes = st.nodes ++ d := by
  intro l
  induction l with
  | nil =>
    intro st st' h
    simp only [foldE, Except.ok.injEq] at h
    exact ⟨[], by rw [← h, List.append_nil]⟩
  | cons a l ih =>
    intro st st' h
    obtain ⟨m, hm, hrest⟩ := foldE_cons_ok h
    obtain ⟨d1, hd1⟩ := hf st a m hm
    obtain ⟨d2, hd2⟩ := ih m st' hrest
    exact ⟨d1 ++ d2, by rw [hd2, hd1, List.append_assoc]⟩

/-- One event only ever appends to the node list. -/
theorem processEvent_nodes_mono {hidden : List ReactomeItem} {cache : Cache}
    {ns : Int} {st st' : BuildState} {ev : EventRec}
    (h : processEvent hidden cache ns st ev = Except.ok st') :
    ∃ d, st'.nodes = st.nodes ++ d := by
  have hfolds : ∀ (st1 st'' : BuildState) (evIdx : Nat),
      (match foldE (processInput hidden cache ns ev.stId evIdx) st1 ev.input with
        | Except.error e => Except.error e
        | Except.ok st2 =>
          foldE (processOutput hidden cache ns ev.stId evIdx) st2 ev.output) =
        Except.ok st'' →
      ∃ d, st''.nodes = st1.nodes ++ d := by
    intro st1 st'' evIdx hmatch
    cases hfi : foldE (processInput hidden cache ns ev.stId evIdx) st1 ev.input with
    | error e => rw [hfi] at hmatch; cases hmatch
    | ok st2 =>
      rw [hfi] at hmatch
      obtain ⟨d1, hd1⟩ :=
        foldE_nodes_mono (fun s a s' hs => processInput_nodes_mono hs)
          ev.input st1 st2 hfi
      obtain ⟨d2, hd2⟩ :=
        foldE_nodes_mono (fun s a s' hs => processOutput_nodes_mono hs)
          ev.output st2 st'' hmatch
      exact ⟨d1 ++ d2, by rw [hd2, hd1, List.append_assoc]⟩
  unfold processEvent at h
  cases hl : lookupName st.nodeMap ev.displayName with
  | some k =>
    rw [hl] at h
    simp only [hl] at h
    exact hfolds st st' k h
  | none =>
    rw [hl] at h
    by_cases hh : visOf hidden ev.stId = some "hide"
    · simp only [if_pos hh] at h
      cases h
      exact ⟨[], by rw [List.append_nil]⟩
    · simp only [if_neg hh] at h
      have hlook : lookupName (pushNode st (mkEventNode ns cache ev)).nodeMap
          ev.displayName = some st.nodes.length := by
        simp [pushNode, mkEventNode, lookupName]
      rw [hlook] at h
      obtain ⟨d, hd⟩ := hfolds _ st' _ h
      exact ⟨mkEventNode ns cache ev :: d, by
        rw [hd]
        simp [pushNode]⟩

/-- Appending never decreases a `countP`. -/
theorem countP_le_of_append {p : NamedNode → Bool} {l : List NamedNode}
    {d : List NamedNode} : l.countP p ≤ (l ++ d).countP p := by
  rw [List.countP_append]
  exact Nat.le_add_right _ _

/-- A split compound occurrence always pushes a fresh node instance. -/
theorem processInput_split_pushes {hidden : List ReactomeItem} {cache : Cache}
    {ns : Int} {evStId : String} {evIdx : Nat} {st st' : BuildState}
    {c : CompoundRec}
    (hsplit : visOf hidden c.stId = some "split")
    (h : processInput hidden cache ns evStId evIdx st (Entry.compound c) =
      Except.ok st') :
    ∃ comp, st'.nodes = st.nodes ++ [mkCompoundNode ns cache evStId c comp] := by
  have hnh : ¬ visOf hidden c.stId = some "hide" := by rw [hsplit]; simp
  have hcond : lookupName st.nodeMap c.displayName = none
      ∨ visOf hidden c.stId = some "split" := Or.inr hsplit
  cases hcomp : mkCompartment c.displayName with
  | none =>
    simp only [processInput, if_neg hnh, if_pos hcond, hcomp] at h
    cases h
  | some comp =>
    simp only [processInput, if_neg hnh, if_pos hcond, hcomp,
      Except.ok.injEq] at h
    exact ⟨comp, by rw [← h]; simp [pushNode]⟩

/-- Processing a non-hidden event whose inputs contain a split compound
occurrence strictly increases the number of node instances for it. -/
theorem processEvent_split_adds {hidden : List ReactomeItem} {cache : Cache}
    {ns : Int} {st st' : BuildState} {ev : EventRec} {c : CompoundRec}
    (hin : Entry.compound c ∈ ev.input)
    (hsplit : visOf hidden c.stId = some "split")
    (hnh : ¬ visOf hidden ev.stId = some "hide")
    (h : processEvent hidden cache ns st ev = Except.ok st') :
    st.nodes.countP (splitMatches c) + 1 ≤ st'.nodes.countP (splitMatches c) := by
  have hfolds : ∀ (st1 st'' : BuildState) (evIdx : Nat),
      (match foldE (processInput hidden cache ns ev.stId evIdx) st1 ev.input with
        | Except.error e => Except.error e
        | Except.ok st2 =>
          foldE (processOutput hidden cache ns ev.stId evIdx) st2 ev.output) =
        Except.ok st'' →
      st1.nodes.countP (splitMatches c) + 1 ≤
        st''.nodes.countP (splitMatches c) := by
    intro st1 st'' evIdx hmatch
    cases hfi : foldE (processInput hidden cache ns ev.stId evIdx) st1 ev.input with
    | error e => rw [hfi] at hmatch; cases hmatch
    | ok st2 =>
      rw [hfi] at hmatch
      obtain ⟨l₁, l₂, hl⟩ := List.append_of_mem hin
      rw [hl] at hfi
      obtain ⟨m1, hm1, hrest⟩ := foldE_append_ok hfi
      obtain ⟨m2, hm2, hrest2⟩ := foldE_cons_ok hrest
      have h01 : st1.nodes.countP (splitMatches c) ≤
          m1.nodes.countP (splitMatches c) := by
        obtain ⟨d, hd⟩ :=
          foldE_nodes_mono (fun s a s' hs => processInput_nodes_mono hs)
            l₁ st1 m1 hm1
        rw [hd]; exact countP_le_of_append
      have h12 : m1.nodes.countP (splitMatches c) + 1 ≤
          m2.nodes.countP (splitMatches c) := by
        obtain ⟨comp, hcomp⟩ := processInput_split_pushes hsplit hm2
        rw [hcomp, List.countP_append]
        have : splitMatches c (mkCompoundNode ns cache ev.stId c comp) = true := by
          simp [splitMatches, mkCompoundNode]
        simp [List.countP_cons, this]
      have h23 : m2.nodes.countP (splitMatches c) ≤
          st2.nodes.countP (splitMatches c) := by
        obtain ⟨d, hd⟩ :=
          foldE_nodes_mono (fun s a s' hs => processInput_nodes_mono hs)
            l₂ m2 st2 hrest2
        rw [hd]; exact countP_le_of_append
      have h34 : st2.nodes.countP (splitMatches c) ≤
          st''.nodes.countP (splitMatches c) := by
        obtain ⟨d, hd⟩ :=
          foldE_nodes_mono (fun s a s' hs => processOutput_nodes_mono hs)
            ev.output st2 st'' hmatch
        rw [hd]; exact countP_le_of_append
      omega
  unfold processEvent at h
  cases hl : lookupName st.nodeMap ev.displayName with
  | some k =>
    rw [hl] at h
    simp only [hl] at h
    exact hfolds st st' k h
  | none =>
    rw [hl] at h
    simp only [if_neg hnh] at h
    have hlook : lookupName (pushNode st (mkEventNode ns cache ev)).nodeMap
        ev.displayName = some st.nodes.length := by
      simp [pushNode, mkEventNode, lookupName]
    rw [hlook] at h
    have hstep := hfolds _ st' _ h
    have hpush : (pushNode st (mkEventNode ns cache ev)).nodes.countP
        (splitMatches c) = st.nodes.countP (splitMatches c) := by
      simp [pushNode, List.countP_append, List.countP_cons, splitMatches,
        mkEventNode]
    omega

/-- Claim C6: a compound whose visibility entry is `split`, appearing as an
input of two different non-hidden reaction records, yields at least two
distinct compound node instances in the built node list - one per
occurrence, each a separate list entry with the compound's stable id and
display name - rather than one shared node. -/
theorem claim_C6_split_duplicates
    (pre mid post : List EventRec) (e1 e2 : EventRec) (c : CompoundRec)
    (hidden : List ReactomeItem) (cache : Cache) (ns : Int) (g : Graph)
    (hcls1 : e1.className = "Reaction") (hcls2 : e2.className = "Reaction")
    (hin1 : Entry.compound c ∈ e1.input) (hin2 : Entry.compound c ∈ e2.input)
    (hsplit : visOf hidden c.stId = some "split")
    (hnh1 : ¬ visOf hidden e1.stId = some "hide")
    (hnh2 : ¬ visOf hidden e2.stId = some "hide")
    (hok : buildGraph (pre ++ e1 :: mid ++ e2 :: post) hidden cache ns =
      Except.ok g) :
    2 ≤ g.nodes.countP (splitMatches c) := by
  unfold buildGraph at hok
  cases hf : foldE (processEvent hidden cache ns)
      { nodes := [], links := [], nodeMap := [] }
      ((pre ++ e1 :: mid ++ e2 :: post).filter
        (fun ev => ev.className == "Reaction")) with
  | error e => rw [hf] at hok; cases hok
  | ok st =>
    rw [hf] at hok
    have hg : g.nodes = st.nodes := by cases hok; rfl
    have hfilt : (pre ++ e1 :: mid ++ e2 :: post).filter
        (fun ev => ev.className == "Reaction")
        = pre.filter (fun ev => ev.className == "Reaction")
          ++ e1 :: (mid.filter (fun ev => ev.className == "Reaction")
            ++ e2 :: post.filter (fun ev => ev.className == "Reaction")) := by
      simp [List.filter_append, List.filter_cons, hcls1, hcls2]
    rw [hfilt] at hf
    obtain ⟨m0, hm0, hrest⟩ := foldE_append_ok hf
    obtain ⟨m1, hm1, hrest1⟩ := foldE_cons_ok hrest
    obtain ⟨m2, hm2, hrest2⟩ := foldE_append_ok hrest1
    obtain ⟨m3, hm3, hrest3⟩ := foldE_cons_ok hrest2
    have h1 : m0.nodes.countP (splitMatches c) + 1 ≤
        m1.nodes.countP (splitMatches c) :=
      processEvent_split_adds hin1 hsplit hnh1 hm1
    have h2 : m1.nodes.countP (splitMatches c) ≤
        m2.nodes.countP (splitMatches c) := by
      obtain ⟨d, hd⟩ :=
        foldE_nodes_mono (fun s a s' hs => processEvent_nodes_mono hs)
          _ m1 m2 hm2
      rw [hd]; exact countP_le_of_append
    have h3 : m2.nodes.countP (splitMatches c) + 1 ≤
        m3.nodes.countP (splitMatches c) :=
      processEvent_split_adds hin2 hsplit hnh2 hm3
    have h4 : m3.nodes.countP (splitMatches c) ≤
        st.nodes.countP (splitMatches c) := by
      obtain ⟨d, hd⟩ :=
        foldE_nodes_mono (fun s a s' hs => processEvent_nodes_mono hs)
          _ m3 st hrest3
      rw [hd]; exact countP_le_of_append
    rw [hg]
    omega

/-- Witness for claim C6: pyruvate marked `split`, consumed by two
reactions, appears as two node instances. -/
theorem claim_C6_split_duplicates_witness :
    2 ≤ (graphOf (buildGraph ([] ++ w6e1 :: [] ++ w6e2 :: []) w6hidden [] 70)).nodes.countP
      (splitMatches w6cpd) :=
  claim_C6_split_duplicates [] [] [] w6e1 w6e2 w6cpd w6hidden [] 70
    (graphOf (buildGraph ([] ++ w6e1 :: [] ++ w6e2 :: []) w6hidden [] 70))
    rfl rfl (by decide) (by decide) rfl (by decide) (by decide) rfl

/-! ### Claim C8: the two-inputs/one-output shape -/

/-- Claim C8 counterexample: the claim as stated only requires the three
compounds' display names to be pairwise distinct.  When the reaction's own
display name collides with an input compound's (legal under the claim's
hypotheses), the shared display-name map suppresses that compound's node:
the build yields 2 compound nodes, not 3, and a self-loop edge on the
reaction node. -/
theorem claim_C8_counterexample :
    ¬ ∀ g, buildGraph [cex8ev] [] [] 70 = Except.ok g →
        g.nodes.countP (fun n => n.type == "compound") = 3 := by
  intro h
  have h2 := h (graphOf (buildGraph [cex8ev] [] [] 70)) rfl
  exact absurd h2 (by decide)

/-- Claim C8 as amended: for a single reaction record with two well-formed
inputs and one well-formed output, the three compounds having pairwise
distinct display names, the reaction's display name distinct from each
compound's, and no entity having a visibility entry, the builder succeeds
and produces exactly 1 reaction node, 3 compound nodes and 3 edges: two
directed compound-to-reaction and one directed reaction-to-compound. -/
theorem claim_C8_amended (ev : EventRec) (c1 c2 c3 : CompoundRec)
    (cache : Cache) (ns : Int)
    (hcls : ev.className = "Reaction")
    (hin : ev.input = [Entry.compound c1, Entry.compound c2])
    (hout : ev.output = [Entry.compound c3])
    (hwf1 : hasCompartment c1) (hwf2 : hasCompartment c2)
    (hwf3 : hasCompartment c3)
    (hd12 : c1.displayName ≠ c2.displayName)
    (hd13 : c1.displayName ≠ c3.displayName)
    (hd23 : c2.displayName ≠ c3.displayName)
    (hde1 : c1.displayName ≠ ev.displayName)
    (hde2 : c2.displayName ≠ ev.displayName)
    (hde3 : c3.displayName ≠ ev.displayName) :
    ∃ g, buildGraph [ev] [] cache ns = Except.ok g
      ∧ g.nodes.countP (fun n => n.type == "event") = 1
      ∧ g.nodes.countP (fun n => n.type == "compound") = 3
      ∧ g.links.length = 3
      ∧ (g.links.filter (fun l => linkKind g l "compound" "event")).length = 2
      ∧ (g.links.filter (fun l => linkKind g l "event" "compound")).length = 1 := by
  obtain ⟨s1, hb1⟩ := hwf1
  obtain ⟨s2, hb2⟩ := hwf2
  obtain ⟨s3, hb3⟩ := hwf3
  refine ⟨⟨[mkEventNode ns cache ev,
        mkCompoundNode ns cache ev.stId c1 s1,
        mkCompoundNode ns cache ev.stId c2 s2,
        mkCompoundNode ns cache ev.stId c3 s3],
      [⟨1, 0⟩, ⟨2, 0⟩, ⟨0, 3⟩]⟩, ?_, ?_, ?_, ?_, ?_, ?_⟩
  · simp [buildGraph, List.filter_cons, hcls, foldE, processEvent,
      processInput, processOutput, lookupName, pushNode, visOf,
      getHiddenNode, hin, hout, hb1, hb2, hb3, hde1, hde2, hde3,
      Ne.symm hd12, Ne.symm hd13, Ne.symm hd23, mkEventNode, mkCompoundNode]
  · simp [List.countP_cons, mkEventNode, mkCompoundNode]
  · simp [List.countP_cons, mkEventNode, mkCompoundNode]
  · rfl
  · simp [linkKind, List.filter_cons, mkEventNode, mkCompoundNode]
  · simp [linkKind, List.filter_cons, mkEventNode, mkCompoundNode]

/-- Witness for the amended claim C8 at the hexokinase example. -/
theorem claim_C8_amended_witness :
    ((graphOf (buildGraph [w8ev] [] [] 70)).nodes.countP
      (fun n => n.type == "compound")) = 3 := by
  obtain ⟨g, hok, h1, h2, h3, h4, h5⟩ :=
    claim_C8_amended w8ev w8c1 w8c2 w8c3 [] 70 rfl rfl rfl
      ⟨"cytosol", rfl⟩ ⟨"cytosol", rfl⟩ ⟨"cytosol", rfl⟩
      (by decide) (by decide) (by decide) (by decide) (by decide) (by decide)
  rw [show graphOf (buildGraph [w8ev] [] [] 70) = g by rw [hok, graphOf]]
  exact h2

/-! ### Claim C1 -/

/-- Claim C1, evaluated at the failing input: the claim (and the spec) say
that a compound display name without a bracketed suffix is tolerated and
must not crash the build, but `displayName.match(/\x5c[(.*?)\x5c]/)[1]`
indexes into `null` and throws, aborting the whole `graph` computation.
The code contradicts the spec here; this theorem exhibits the thrown
error on a concrete input. -/
theorem claim_C1_no_bracket_build_error :
    buildGraph [bracketlessEvent] [] [] 70 = Except.error nullMatchError := by
  rfl

/-! ### Claims C4 and C10: the `updateState` cycle -/

/-- Claim C4: visibility state cycles are closed under `updateState`.  A
compound-type entry starting in `show` returns to `show` after three
toggles (show, split, hide, show); any other entry starting in `show`
returns to `show` after two toggles (show, hide, show). -/
theorem claim_C4_state_cycles_closed (item : ReactomeItem)
    (hstate : item.state = "show") :
    (item.type = "compound" →
      (updateState (updateState (updateState item))).state = "show")
    ∧ (item.type ≠ "compound" →
      (updateState (updateState item)).state = "show") := by
  constructor
  · intro htype
    simp [updateState, htype, hstate]
  · intro htype
    simp [updateState, htype, hstate]

theorem claim_C4_state_cycles_closed_witness :
    (updateState (updateState (updateState wCompoundItem))).state = "show" :=
  (claim_C4_state_cycles_closed wCompoundItem (by decide)).1 (by decide)

/-- Claim C10: one `updateState` application moves every non-compound
entry into `show` or `hide`; in particular it is never left in `split`
(from `split` it moves to `hide`, there is no 3-cycle for reactions). -/
theorem claim_C10_noncompound_binary (item : ReactomeItem)
    (htype : item.type ≠ "compound") :
    ((updateState item).state = "show" ∨ (updateState item).state = "hide")
    ∧ (updateState item).state ≠ "split" := by
  by_cases h : item.state = "hide"
  · simp [updateState, htype, h]
  · simp [updateState, htype, h]

/-- Witness for claim C10 at a concrete reaction entry in state `split`. -/
theorem claim_C10_noncompound_binary_witness :
    (updateState (wEventItem "split")).state = "show"
    ∨ (updateState (wEventItem "split")).state = "hide" :=
  (claim_C10_noncompound_binary (wEventItem "split") (by decide)).1

/-! ### Claim C9: settings deserialization -/

/-- Claim C9 counterexample: the claim says a corrupt stored value for a
numeric field falls back to the typed default (8 for `fontSize`), but
`+(localStorage.getItem("fontSize") || 8)` applies `ToNumber` to any
non-empty stored string, so a corrupt value yields `NaN`, not 8. -/
theorem claim_C9_counterexample :
    initNumSetting (some "garbage") 8 ≠ JsNum.num 8 := by
  decide

/-- Claim C9 as amended: list-valued settings fall back to the empty list
when deserialization throws, and numeric settings fall back to the typed
default when the stored value is absent or empty - neither path can throw -
but a corrupt non-empty numeric string produces `NaN` rather than the
default, and a corrupt enum string (background display) is kept verbatim
rather than replaced by its default. -/
theorem claim_C9_amended (dflt : Rat) :
    initListSetting none = []
    ∧ initNumSetting none dflt = JsNum.num dflt
    ∧ initNumSetting (some "") dflt = JsNum.num dflt
    ∧ initNumSetting (some "garbage") dflt = JsNum.nan
    ∧ initEnumSetting (some "bogus") "none" = "bogus" := by
  refine ⟨rfl, rfl, rfl, ?_, rfl⟩
  have h : jsStringToNumber "garbage" = JsNum.nan := by decide
  simp [initNumSetting, h]

